import Mathlib

/-!
# ResumeScreen scoring engine: a shallow embedding

This file embeds the scoring engine of the ResumeScreen repository
(`src/scoring_engine.py`) and the fallback text-similarity path of its
text-analysis layer (`src/nlp_analyzer.py`) into Lean, and proves the
spec's testable properties about that embedding.

Modelling conventions:
* Python floats are modelled as rationals (`ℚ`); `round(x, 1)` is modelled
  by round-half-to-even at one decimal place (`round1`).
* Python dict-shaped candidate records are modelled by `CandidateRecord`:
  the four data fields read by the engine (each `Option`al, since
  `candidate.get(key, default)` substitutes a default when the key is
  absent), the block of six score keys written by the engine (`scores?`),
  and an opaque association list `extra` for all remaining keys.
* `NLPAnalyzer.analyze_job_requirements` drives an external spaCy pipeline;
  scoring-engine theorems therefore quantify over an arbitrary analysis
  function `analyze : String → JobAnalysis` producing the four fields the
  engine reads.
* Python's stable `list.sort(key=..., reverse=True)` is modelled by
  `List.insertionSort` with the relation `byOverallDesc`, which places an
  earlier-input element before later equal-scoring ones, exactly the
  stable-descending behaviour of CPython's sort.
-/

namespace ResumeScreen

/-! ## Rounding: Python `round(x, 1)` on rationals -/

/-- Round a rational to the nearest integer, halves to even
(Python's `round` convention). -/
def roundHalfEven (x : ℚ) : ℤ :=
  let f := ⌊x⌋
  let r := x - (f : ℚ)
  if r < 1/2 then f
  else if 1/2 < r then f + 1
  else if f % 2 = 0 then f else f + 1

/-- Source `round(x, 1)`: round to one decimal place, halves to even. -/
def round1 (x : ℚ) : ℚ := (roundHalfEven (10 * x) : ℚ) / 10

/-- Python's `str.lower()` (character-wise lower-casing). -/
def pyLower (s : String) : String := (s.toList.map Char.toLower).asString

/-- Python's binary `min` (first argument on ties). -/
def minQ (a b : ℚ) : ℚ := if a ≤ b then a else b

/-- Python's binary `max` (first argument on ties). -/
def maxQ (a b : ℚ) : ℚ := if b ≤ a then a else b

/-! ## Skill matching (`ScoringEngine._score_skills_match`, lines 106-174) -/

/-- The fixed skill-variant table of `ScoringEngine._is_skill_variant`. -/
def skillVariants : List (String × List String) :=
  [("javascript", ["js", "ecmascript"]),
   ("typescript", ["ts"]),
   ("python", ["py"]),
   ("machine learning", ["ml", "ai", "artificial intelligence"]),
   ("database", ["db", "sql"]),
   ("user interface", ["ui"]),
   ("user experience", ["ux"]),
   ("cascading style sheets", ["css"]),
   ("hypertext markup language", ["html"]),
   ("node.js", ["nodejs", "node"]),
   ("react.js", ["react", "reactjs"]),
   ("angular.js", ["angular", "angularjs"]),
   ("vue.js", ["vue", "vuejs"])]

/-- Source `ScoringEngine._is_skill_variant`: the pair belongs to the variant
table (main vs variant either way round, or both variants of one main). -/
def is_skill_variant (skill1 skill2 : String) : Bool :=
  skillVariants.any fun mv =>
    (skill1 == mv.1 && mv.2.contains skill2) ||
    (skill2 == mv.1 && mv.2.contains skill1) ||
    (mv.2.contains skill1 && mv.2.contains skill2)

/-- Python's substring test `a in b` on strings. -/
def substrOf (a b : String) : Bool := decide (a.toList <:+: b.toList)

/-- One required skill admits a partial match against one candidate skill:
either string contains the other, or the two are listed variants
(`_score_skills_match`, lines 134-139). -/
def partialMatch (required candidate : String) : Bool :=
  substrOf required candidate || substrOf candidate required ||
    is_skill_variant required candidate

/-- The loop of `_score_skills_match` lines 128-139: each required skill
(already lower-cased) increments `exact` when present verbatim in the
candidate list, otherwise increments `near` (at most once, mirroring the
`break`) when some candidate skill is a partial match. -/
def skillMatchCounts (candL reqL : List String) : ℕ × ℕ :=
  reqL.foldl
    (fun acc r =>
      if candL.contains r then (acc.1 + 1, acc.2)
      else if candL.any (fun c => partialMatch r c) then (acc.1, acc.2 + 1)
      else acc)
    (0, 0)

/-- Source `ScoringEngine._score_skills_match` (candidate skills, required skills):
0 when either list is empty, else
`min(100 * (exact*1.0 + near*0.7) / |required|, 100)`. -/
def score_skills_match (candidate_skills required_skills : List String) : ℚ :=
  if required_skills = [] ∨ candidate_skills = [] then 0
  else
    let candL := candidate_skills.map pyLower
    let reqL := required_skills.map pyLower
    let counts := skillMatchCounts candL reqL
    let score : ℚ :=
      ((counts.1 : ℚ) * 1 + (counts.2 : ℚ) * (7/10)) / (reqL.length : ℚ)
    minQ (score * 100) 100

/-- Source `_score_skills_match` without the final `min(·, 100)` cap. -/
def score_skills_match_uncapped (candidate_skills required_skills : List String) : ℚ :=
  if required_skills = [] ∨ candidate_skills = [] then 0
  else
    let candL := candidate_skills.map pyLower
    let reqL := required_skills.map pyLower
    let counts := skillMatchCounts candL reqL
    ((counts.1 : ℚ) * 1 + (counts.2 : ℚ) * (7/10)) / (reqL.length : ℚ) * 100

/-! ## Year extraction (`ScoringEngine._extract_years_from_text`, lines 211-236)

The Python method runs four regexes in order over the lower-cased text —
`(\d+)\s*(?:\+)?\s*years?`, `(\d+)\s*(?:\+)?\s*yrs?`, `^(\d+)$`, `~(\d+)` —
takes the first (leftmost) match of the first pattern that has one, and
returns its integer value when it lies strictly between 0 and 50; a
first match outside that range falls through to the next pattern. -/

/-- Python's `\s` whitespace class (ASCII part). -/
def isSpaceChar (c : Char) : Bool :=
  c = ' ' || c = '\t' || c = '\n' || c = '\x0d' || c = '\x0b' || c = '\x0c'

/-- Numeric value of a digit run. -/
def digitsToNat (ds : List Char) : ℕ :=
  ds.foldl (fun n c => 10 * n + (c.toNat - 48)) 0

/-- After the captured digit run, the regex tail `\s*(?:\+)?\s*kw` must
match: optional whitespace, an optional `+`, optional whitespace, then the
literal keyword (`year` or `yr`; the trailing `s?` is irrelevant). -/
def matchAfterNum (kw : List Char) (rest : List Char) : Bool :=
  let r1 := rest.dropWhile isSpaceChar
  let r2 := match r1 with
    | '+' :: t => t.dropWhile isSpaceChar
    | _ => r1
  kw.isPrefixOf r2

/-- Leftmost match of `(\d+)\s*(?:\+)?\s*kw`, scanning with a flag that
records whether the previous character was a digit: a match starting
mid-run shares its continuation with the run's start, so leftmost matches
always start where a maximal digit run starts. -/
def findNumAux (kw : List Char) : Bool → List Char → Option ℕ
  | _, [] => none
  | prevDigit, c :: cs =>
    if c.isDigit && !prevDigit then
      let run := c :: cs.takeWhile Char.isDigit
      let rest := cs.dropWhile Char.isDigit
      if matchAfterNum kw rest then some (digitsToNat run)
      else findNumAux kw true cs
    else findNumAux kw c.isDigit cs

/-- Leftmost match of `(\d+)\s*(?:\+)?\s*kw` in the text. -/
def findNumBefore (kw : List Char) (l : List Char) : Option ℕ :=
  findNumAux kw false l

/-- Leftmost match of `~(\d+)`: the first `~` immediately followed by a
digit, capturing the maximal digit run after it. -/
def findTilde : List Char → Option ℕ
  | [] => none
  | c :: cs =>
    if c = '~' then
      match cs with
      | d :: _ => if d.isDigit then some (digitsToNat (cs.takeWhile Char.isDigit))
                  else findTilde cs
      | [] => none
    else findTilde cs

/-- Source `^(\d+)$` over the whole text. Without `re.MULTILINE`, `$` also
matches just before one trailing newline, so a final `\n` is tolerated. -/
def bareInt (l : List Char) : Option ℕ :=
  let body := match l.getLast? with
    | some '\n' => l.dropLast
    | _ => l
  if body ≠ [] ∧ body.all Char.isDigit then some (digitsToNat body) else none

/-- One step of the pattern loop: accept the pattern's first match when it
is strictly between 0 and 50, otherwise fall through to the next pattern. -/
def tryYears (r : Option ℕ) (next : ℕ) : ℕ :=
  match r with
  | some n => if 0 < n ∧ n < 50 then n else next
  | none => next

/-- Source `ScoringEngine._extract_years_from_text`. -/
def extract_years_from_text (text : String) : ℕ :=
  if text = "" ∨ text = "Not Specified" ∨ text = "Unknown" then 0
  else
    let l := (pyLower text).toList
    tryYears (findNumBefore "year".toList l)
      (tryYears (findNumBefore "yr".toList l)
        (tryYears (bareInt l)
          (tryYears (findTilde l) 0)))

/-- Source `ScoringEngine._score_experience_match` (candidate text, required
text), lines 176-209. -/
def score_experience_match (candidate_experience required_experience : String) : ℚ :=
  let candidate_years := extract_years_from_text candidate_experience
  let required_years := extract_years_from_text required_experience
  if required_years = 0 then 75
  else if candidate_years = 0 then 30
  else if required_years ≤ candidate_years then
    let excess_ratio : ℚ := (candidate_years : ℚ) / (required_years : ℚ)
    if excess_ratio ≤ 3/2 then 100
    else maxQ 85 (100 - (excess_ratio - 3/2) * 10)
  else ((candidate_years : ℚ) / (required_years : ℚ)) * 80

/-! ## Education matching (`ScoringEngine._score_education_match`, 238-292) -/

/-- The fixed education-level hierarchy (keyword, level). -/
def educationLevels : List (String × ℕ) :=
  [("phd", 6), ("doctorate", 6),
   ("master", 5), ("masters", 5), ("msc", 5), ("ma", 5), ("mba", 5),
   ("mtech", 5), ("me", 5),
   ("bachelor", 4), ("bachelors", 4), ("bsc", 4), ("ba", 4), ("btech", 4),
   ("be", 4),
   ("associate", 3),
   ("diploma", 2),
   ("certificate", 1)]

/-- The level-detection loop of lines 272-276, for one lower-cased text:
the maximum level whose keyword occurs as a substring, 0 when none does. -/
def eduLevel (txt : String) : ℕ :=
  educationLevels.foldl
    (fun acc kv => if substrOf kv.1 txt then max acc kv.2 else acc) 0

/-- Source `ScoringEngine._score_education_match` (candidate text, required text). -/
def score_education_match (candidate_education required_education : String) : ℚ :=
  if required_education = "" ∨ required_education = "Not specified" then 75
  else if candidate_education = "" ∨ candidate_education = "Not Specified" then 40
  else
    let candidate_level := eduLevel (pyLower candidate_education)
    let required_level := eduLevel (pyLower required_education)
    if required_level = 0 then 70
    else if candidate_level = 0 then 50
    else if required_level ≤ candidate_level then 100
    else if candidate_level = required_level - 1 then 75
    else if candidate_level = required_level - 2 then 50
    else 25

/-! ## Keyword relevance (`ScoringEngine._score_keyword_relevance`, 294-323) -/

/-- Source `ScoringEngine._score_keyword_relevance` (candidate text, keywords). -/
def score_keyword_relevance (candidate_text : String) (important_keywords : List String) : ℚ :=
  if important_keywords = [] ∨ candidate_text = "" then 50
  else
    let ctL := pyLower candidate_text
    let matchCount :=
      (important_keywords.filter (fun k => substrOf (pyLower k) ctL)).length
    if important_keywords.length = 0 then 50
    else (matchCount : ℚ) / (important_keywords.length : ℚ) * 100

/-! ## Text similarity (`NLPAnalyzer`, lines 220-260)

`calculate_text_similarity` lower-cases both texts, runs them through the
spaCy pipeline, and computes a similarity.  The spaCy vector path is an
external library; the in-repository computation is `_token_similarity`:
Jaccard similarity over the sets of lemmatized, non-stopword,
non-punctuation tokens.  We embed that path, with tokenization modelled
from the spec (spaCy's tokenizer/lemmatizer is external). -/

/-- The fallback stopword list of `NLPAnalyzer._get_stopwords`. -/
def fallbackStopwords : List String :=
  ["a", "an", "and", "are", "as", "at", "be", "by", "for", "from",
   "has", "he", "in", "is", "it", "its", "of", "on", "that", "the",
   "to", "was", "will", "with", "the", "this", "but", "they", "have",
   "had", "what", "said", "each", "which", "their", "time", "if"]

/-- A token consisting only of non-alphanumeric characters counts as
punctuation. -/
def isPunctToken (w : String) : Bool := w.toList.all (fun c => !c.isAlphanum)

/-- Split a text into maximal whitespace-free words, scanning with a flag
that records whether the previous character was part of a word. -/
def wordsAux : Bool → List Char → List (List Char)
  | _, [] => []
  | inWord, c :: cs =>
    if isSpaceChar c then wordsAux false cs
    else if inWord then wordsAux true cs
    else (c :: cs.takeWhile (fun d => !isSpaceChar d)) :: wordsAux true cs

/-- Split a text into maximal whitespace-free words. -/
def wordsOf (l : List Char) : List (List Char) := wordsAux false l

/-- Modelled from the spec: the set of lemmatized, non-stopword,
non-punctuation tokens of a (lower-cased) text.  spaCy's tokenizer,
lemmatizer and stopword/punctuation flags are external to the repository;
this model splits on whitespace, drops the repository's fallback stopwords
and purely-punctuation words, and applies no lemmatization. -/
def tokenize (text : String) : Finset String :=
  (((wordsOf text.toList).map List.asString).filter
    (fun w => !fallbackStopwords.contains w && !isPunctToken w)).toFinset

/-- Source `NLPAnalyzer._token_similarity` on the two token sets: 0 when either
set is empty, else Jaccard `|∩| / |∪|` (guarded by `union > 0` as in the
source's conditional expression). -/
def token_similarity (tokens1 tokens2 : Finset String) : ℚ :=
  if tokens1 = ∅ ∨ tokens2 = ∅ then 0
  else if 0 < (tokens1 ∪ tokens2).card then
    ((tokens1 ∩ tokens2).card : ℚ) / ((tokens1 ∪ tokens2).card : ℚ)
  else 0

/-- Source `NLPAnalyzer.calculate_text_similarity`, embedded on its in-repository
(token-overlap) path: both texts are lower-cased, tokenized, and compared
by `_token_similarity`. -/
def calculate_text_similarity (text1 text2 : String) : ℚ :=
  token_similarity (tokenize (pyLower text1)) (tokenize (pyLower text2))

/-- Source `ScoringEngine._score_text_similarity`. -/
def score_text_similarity (candidate_text job_description : String) : ℚ :=
  if candidate_text = "" ∨ job_description = "" then 0
  else calculate_text_similarity candidate_text job_description * 100

/-! ## Data model and aggregate scoring
(`ScoringEngine.score_candidates` / `_score_single_candidate`) -/

/-- The six score keys `_score_single_candidate` returns (lines 97-104). -/
structure ScoreRecord where
  skills_score : ℚ
  experience_score : ℚ
  education_score : ℚ
  keyword_score : ℚ
  similarity_score : ℚ
  overall_score : ℚ
deriving DecidableEq

/-- A candidate dict.  The four data fields the engine reads are `Option`al
(`candidate.get(key, default)` substitutes a default when the key is
absent); `scores?` holds the block of six score keys when present; `extra`
stands for every other key-value pair of the dict, which the engine never
touches. -/
structure CandidateRecord where
  skills? : Option (List String)
  experience_years? : Option String
  education? : Option String
  raw_text? : Option String
  scores? : Option ScoreRecord
  extra : List (String × String)
deriving DecidableEq

/-- The four fields of `NLPAnalyzer.analyze_job_requirements`'s result that
the scoring engine reads. -/
structure JobAnalysis where
  required_skills : List String
  experience_requirements : String
  education_requirements : String
  important_keywords : List String

/-- The weight configuration (`self.weights`). -/
structure Weights where
  skills_match : ℚ
  experience_match : ℚ
  education_match : ℚ
  keyword_relevance : ℚ
  text_similarity : ℚ

/-- The weight configuration set by `ScoringEngine.__init__` (lines 12-18). -/
def defaultWeights : Weights :=
  { skills_match := 4/10, experience_match := 25/100,
    education_match := 15/100, keyword_relevance := 15/100,
    text_similarity := 5/100 }

/-- The unrounded component scores of one candidate, in the order they are
computed by `_score_single_candidate` (lines 63-86). -/
def rawSkills (c : CandidateRecord) (ja : JobAnalysis) : ℚ :=
  score_skills_match (c.skills?.getD []) ja.required_skills

def rawExperience (c : CandidateRecord) (ja : JobAnalysis) : ℚ :=
  score_experience_match (c.experience_years?.getD "0") ja.experience_requirements

def rawEducation (c : CandidateRecord) (ja : JobAnalysis) : ℚ :=
  score_education_match (c.education?.getD "") ja.education_requirements

def rawKeyword (c : CandidateRecord) (ja : JobAnalysis) : ℚ :=
  score_keyword_relevance (c.raw_text?.getD "") ja.important_keywords

def rawSimilarity (c : CandidateRecord) (jd : String) : ℚ :=
  score_text_similarity (c.raw_text?.getD "") jd

/-- The weighted overall sum of lines 89-95, over unrounded components. -/
def rawOverall (w : Weights) (c : CandidateRecord) (jd : String) (ja : JobAnalysis) : ℚ :=
  rawSkills c ja * w.skills_match +
  rawExperience c ja * w.experience_match +
  rawEducation c ja * w.education_match +
  rawKeyword c ja * w.keyword_relevance +
  rawSimilarity c jd * w.text_similarity

/-- Source `ScoringEngine._score_single_candidate`: each component and the overall
sum rounded independently to one decimal place (lines 97-104). -/
def score_single_candidate (w : Weights) (c : CandidateRecord) (jd : String)
    (ja : JobAnalysis) : ScoreRecord :=
  { skills_score := round1 (rawSkills c ja)
    experience_score := round1 (rawExperience c ja)
    education_score := round1 (rawEducation c ja)
    keyword_score := round1 (rawKeyword c ja)
    similarity_score := round1 (rawSimilarity c jd)
    overall_score := round1 (rawOverall w c jd ja) }

/-- Source `candidate_scored = candidate.copy(); candidate_scored.update(scores)`
(lines 40-41): the six score keys are set, every other key is kept. -/
def updateScores (c : CandidateRecord) (s : ScoreRecord) : CandidateRecord :=
  { c with scores? := some s }

/-- The sort key `x['overall_score']` (line 46).  In `score_candidates`
every record carries scores; a scoreless record reads as 0 here. -/
def overallOf (c : CandidateRecord) : ℚ :=
  (c.scores?.getD ⟨0, 0, 0, 0, 0, 0⟩).overall_score

/-- The sort relation of line 46: `sort(key=overall_score, reverse=True)`.
CPython's sort is stable, so `a` precedes `b` exactly when `a`'s key is at
least `b`'s; `List.insertionSort` with this relation reproduces that order
(an element is inserted before the first already-placed element whose key
is not larger). -/
def byOverallDesc (a b : CandidateRecord) : Prop := overallOf b ≤ overallOf a

instance : DecidableRel byOverallDesc :=
  fun a b => inferInstanceAs (Decidable (overallOf b ≤ overallOf a))

/-- Source `ScoringEngine.score_candidates` (lines 20-48), with the
spaCy-dependent `NLPAnalyzer.analyze_job_requirements` abstracted as the
parameter `analyze`: analyze the job description once, decorate each
candidate with its scores, and stably sort by descending overall score. -/
def score_candidates (w : Weights) (analyze : String → JobAnalysis)
    (candidates : List CandidateRecord) (job_description : String) :
    List CandidateRecord :=
  let ja := analyze job_description
  List.insertionSort byOverallDesc
    (candidates.map fun c => updateScores c (score_single_candidate w c job_description ja))

/-! ## Exception-aware variants

To state that the scoring path never raises (spec §4.2 step 4, §7), each
scorer is re-expressed in the `Option` monad with every fallible operation
made explicit: a division returns `none` on a zero divisor (Python would
raise `ZeroDivisionError`).  The similarity computation sits inside
`try/except` in the source, so any failure there is mapped to `0.0`
(`Option.getD 0`) instead of propagating.  The safety theorem shows the
`Option` computation always succeeds and agrees with the total embedding. -/

/-- Division, `none` on a zero divisor. -/
def divq (a b : ℚ) : Option ℚ := if b = 0 then none else some (a / b)

/-- Source `_score_skills_match` with its division made explicit. -/
def score_skills_matchE (candidate_skills required_skills : List String) :
    Option ℚ :=
  if required_skills = [] ∨ candidate_skills = [] then some 0
  else
    let candL := candidate_skills.map pyLower
    let reqL := required_skills.map pyLower
    let counts := skillMatchCounts candL reqL
    (divq ((counts.1 : ℚ) * 1 + (counts.2 : ℚ) * (7/10)) (reqL.length : ℚ)).map
      fun score => minQ (score * 100) 100

/-- Source `_score_experience_match` with its divisions made explicit. -/
def score_experience_matchE (a b : String) : Option ℚ :=
  let candidate_years := extract_years_from_text a
  let required_years := extract_years_from_text b
  if required_years = 0 then some 75
  else if candidate_years = 0 then some 30
  else if required_years ≤ candidate_years then
    (divq (candidate_years : ℚ) (required_years : ℚ)).map fun excess_ratio =>
      if excess_ratio ≤ 3/2 then 100
      else maxQ 85 (100 - (excess_ratio - 3/2) * 10)
  else
    (divq (candidate_years : ℚ) (required_years : ℚ)).map fun ratio => ratio * 80

/-- Source `_score_education_match` performs no fallible operation. -/
def score_education_matchE (a b : String) : Option ℚ :=
  some (score_education_match a b)

/-- Source `_score_keyword_relevance` with its division made explicit (the
division is guarded by the `total_keywords == 0` check of line 319). -/
def score_keyword_relevanceE (t : String) (kws : List String) : Option ℚ :=
  if kws = [] ∨ t = "" then some 50
  else
    let ctL := pyLower t
    let matchCount := (kws.filter fun k => substrOf (pyLower k) ctL).length
    if kws.length = 0 then some 50
    else (divq (matchCount : ℚ) (kws.length : ℚ)).map fun ratio => ratio * 100

/-- Source `_token_similarity` with its division made explicit (guarded by the
source's `if union > 0` conditional). -/
def token_similarityE (tokens1 tokens2 : Finset String) : Option ℚ :=
  if tokens1 = ∅ ∨ tokens2 = ∅ then some 0
  else if 0 < (tokens1 ∪ tokens2).card then
    divq ((tokens1 ∩ tokens2).card : ℚ) (((tokens1 ∪ tokens2).card : ℚ))
  else some 0

/-- Source `calculate_text_similarity` wraps its body in `try/except` and maps any
internal error to `0.0` (lines 231-244): modelled by `Option.getD 0`. -/
def calculate_text_similarityE (text1 text2 : String) : ℚ :=
  (token_similarityE (tokenize (pyLower text1)) (tokenize (pyLower text2))).getD 0

/-- Source `_score_text_similarity` over the exception-aware similarity. -/
def score_text_similarityE (candidate_text job_description : String) : ℚ :=
  if candidate_text = "" ∨ job_description = "" then 0
  else calculate_text_similarityE candidate_text job_description * 100

/-- Source `_score_single_candidate` in the `Option` monad. -/
def score_single_candidateE (w : Weights) (c : CandidateRecord) (jd : String)
    (ja : JobAnalysis) : Option ScoreRecord := do
  let skills ← score_skills_matchE (c.skills?.getD []) ja.required_skills
  let exp ← score_experience_matchE (c.experience_years?.getD "0")
    ja.experience_requirements
  let edu ← score_education_matchE (c.education?.getD "") ja.education_requirements
  let kw ← score_keyword_relevanceE (c.raw_text?.getD "") ja.important_keywords
  let sim := score_text_similarityE (c.raw_text?.getD "") jd
  some
    { skills_score := round1 skills
      experience_score := round1 exp
      education_score := round1 edu
      keyword_score := round1 kw
      similarity_score := round1 sim
      overall_score := round1 (skills * w.skills_match + exp * w.experience_match +
        edu * w.education_match + kw * w.keyword_relevance + sim * w.text_similarity) }

/-- Source `score_candidates` in the `Option` monad. -/
def score_candidatesE (w : Weights) (analyze : String → JobAnalysis)
    (candidates : List CandidateRecord) (job_description : String) :
    Option (List CandidateRecord) := do
  let ja := analyze job_description
  let scored ← candidates.mapM fun c =>
    (score_single_candidateE w c job_description ja).map (updateScores c)
  some (List.insertionSort byOverallDesc scored)

/-! ## Concrete inputs used to instantiate the theorems -/

/-- A concrete candidate record. -/
def cand0 : CandidateRecord :=
  { skills? := some ["python", "Docker"]
    experience_years? := some "5 years"
    education? := some "Bachelor of Science"
    raw_text? := some "python developer"
    scores? := none
    extra := [("name", "A")] }

/-- A concrete job analysis. -/
def ja0 : JobAnalysis :=
  { required_skills := ["Python", "AWS"]
    experience_requirements := "5 years"
    education_requirements := "bachelor"
    important_keywords := ["python"] }

/-- A concrete analysis function. -/
def analyze0 : String → JobAnalysis := fun _ => ja0

/-! ## Lemmas about rounding -/

theorem roundHalfEven_close (x : ℚ) :
    x - 1/2 ≤ (roundHalfEven x : ℚ) ∧ (roundHalfEven x : ℚ) ≤ x + 1/2 := by
  have h0 : 0 ≤ x - (⌊x⌋ : ℚ) := by linarith [Int.floor_le x]
  have h1 : x - (⌊x⌋ : ℚ) < 1 := by linarith [Int.lt_floor_add_one x]
  simp only [roundHalfEven]
  split
  · constructor <;> [linarith; linarith]
  · split
    · push_cast
      constructor <;> linarith
    · split
      · constructor <;> linarith
      · push_cast
        constructor <;> linarith

theorem roundHalfEven_nonneg (x : ℚ) (hx : 0 ≤ x) : 0 ≤ roundHalfEven x := by
  have hf : (0 : ℤ) ≤ ⌊x⌋ := Int.le_floor.mpr (by exact_mod_cast hx)
  simp only [roundHalfEven]
  split
  · exact hf
  · split
    · omega
    · split <;> omega

theorem roundHalfEven_le (x : ℚ) (n : ℤ) (hn : x ≤ (n : ℚ)) :
    roundHalfEven x ≤ n := by
  have hf : ⌊x⌋ ≤ n := by
    have h := Int.floor_le_floor hn
    simpa using h
  rcases lt_or_eq_of_le hf with h | h
  · simp only [roundHalfEven]
    split
    · omega
    · split
      · omega
      · split <;> omega
  · have hr : x - ((⌊x⌋ : ℤ) : ℚ) < 1/2 := by
      rw [h]
      linarith
    simp only [roundHalfEven]
    rw [if_pos hr, h]

theorem round1_nonneg (x : ℚ) (hx : 0 ≤ x) : 0 ≤ round1 x := by
  have h := roundHalfEven_nonneg (10 * x) (by linarith)
  unfold round1
  positivity

theorem round1_le_hundred (x : ℚ) (hx : x ≤ 100) : round1 x ≤ 100 := by
  have h : roundHalfEven (10 * x) ≤ (1000 : ℤ) :=
    roundHalfEven_le (10 * x) 1000 (by push_cast; linarith)
  unfold round1
  have h' : ((roundHalfEven (10 * x) : ℤ) : ℚ) ≤ 1000 := by exact_mod_cast h
  linarith

theorem abs_round1_sub (x : ℚ) : |round1 x - x| ≤ 1/20 := by
  obtain ⟨h1, h2⟩ := roundHalfEven_close (10 * x)
  unfold round1
  rw [abs_le]
  constructor <;> [linarith; linarith]

/-! ## Range lemmas for the component scorers -/

theorem score_skills_match_nonneg (cs rs : List String) :
    0 ≤ score_skills_match cs rs := by
  simp only [score_skills_match]
  split
  · norm_num
  · unfold minQ
    split
    · positivity
    · norm_num

theorem score_skills_match_le_hundred (cs rs : List String) :
    score_skills_match cs rs ≤ 100 := by
  simp only [score_skills_match]
  split
  · norm_num
  · unfold minQ
    split
    · assumption
    · norm_num

theorem score_experience_match_nonneg (a b : String) :
    0 ≤ score_experience_match a b := by
  simp only [score_experience_match]
  split
  · norm_num
  split
  · norm_num
  split
  · split
    · norm_num
    · unfold maxQ
      split <;> linarith
  · positivity

theorem score_experience_match_le_hundred (a b : String) :
    score_experience_match a b ≤ 100 := by
  simp only [score_experience_match]
  split
  · norm_num
  split
  · norm_num
  split
  · split
    · norm_num
    · unfold maxQ
      split <;> linarith
  · rename_i hr hc hlt
    have hrpos : 0 < extract_years_from_text b := Nat.pos_of_ne_zero hr
    have hratio : (extract_years_from_text a : ℚ) / (extract_years_from_text b : ℚ) < 1 := by
      rw [div_lt_one (by exact_mod_cast hrpos)]
      exact_mod_cast Nat.lt_of_not_le hlt
    linarith

theorem score_education_match_nonneg (a b : String) :
    0 ≤ score_education_match a b := by
  simp only [score_education_match]
  repeat' split <;> norm_num

theorem score_education_match_le_hundred (a b : String) :
    score_education_match a b ≤ 100 := by
  simp only [score_education_match]
  repeat' split <;> norm_num

theorem score_keyword_relevance_nonneg (t : String) (kws : List String) :
    0 ≤ score_keyword_relevance t kws := by
  simp only [score_keyword_relevance]
  repeat' split <;> positivity

theorem score_keyword_relevance_le_hundred (t : String) (kws : List String) :
    score_keyword_relevance t kws ≤ 100 := by
  simp only [score_keyword_relevance]
  split
  · norm_num
  split
  · norm_num
  rename_i hne hlen
  have hpos : 0 < kws.length := Nat.pos_of_ne_zero hlen
  have hle : ((kws.filter fun k => substrOf (pyLower k) (pyLower t)).length : ℚ) /
      (kws.length : ℚ) ≤ 1 := by
    rw [div_le_one (by exact_mod_cast hpos)]
    exact_mod_cast List.length_filter_le _ _
  linarith

theorem token_similarity_nonneg (t1 t2 : Finset String) :
    0 ≤ token_similarity t1 t2 := by
  simp only [token_similarity]
  repeat' split <;> positivity

theorem token_similarity_le_one (t1 t2 : Finset String) :
    token_similarity t1 t2 ≤ 1 := by
  simp only [token_similarity]
  split
  · norm_num
  split
  · rename_i hne hcard
    rw [div_le_one (by exact_mod_cast hcard)]
    exact_mod_cast Finset.card_le_card Finset.inter_subset_union
  · norm_num

theorem score_text_similarity_nonneg (t jd : String) :
    0 ≤ score_text_similarity t jd := by
  simp only [score_text_similarity]
  split
  · norm_num
  · have := token_similarity_nonneg (tokenize (pyLower t)) (tokenize (pyLower jd))
    unfold calculate_text_similarity
    linarith

theorem score_text_similarity_le_hundred (t jd : String) :
    score_text_similarity t jd ≤ 100 := by
  simp only [score_text_similarity]
  split
  · norm_num
  · have := token_similarity_le_one (tokenize (pyLower t)) (tokenize (pyLower jd))
    unfold calculate_text_similarity
    linarith

/-! ## Skill-count characterization -/

/-- The counting loop, characterized: the exact count is the number of
required skills present verbatim in the candidate list, and the near count
is the number of required skills that are not exact but have at least one
partial match (each contributing at most once, mirroring the `break`). -/
theorem skillMatchCounts_spec (candL reqL : List String) :
    skillMatchCounts candL reqL =
      ((reqL.filter fun r => candL.contains r).length,
       (reqL.filter fun r =>
         !candL.contains r && candL.any fun c => partialMatch r c).length) := by
  suffices h : ∀ (l : List String) (acc : ℕ × ℕ),
      l.foldl (fun acc r =>
        if candL.contains r then (acc.1 + 1, acc.2)
        else if candL.any (fun c => partialMatch r c) then (acc.1, acc.2 + 1)
        else acc) acc =
      (acc.1 + (l.filter fun r => candL.contains r).length,
       acc.2 + (l.filter fun r =>
         !candL.contains r && candL.any fun c => partialMatch r c).length) by
    simpa [skillMatchCounts] using h reqL (0, 0)
  intro l
  induction l with
  | nil => intro acc; simp
  | cons r rs ih =>
    intro acc
    by_cases hc : candL.contains r
    · simp only [List.foldl_cons, if_pos hc, ih, List.filter_cons, hc]
      simp [Prod.ext_iff]
      omega
    · by_cases hp : candL.any fun c => partialMatch r c
      · simp only [List.foldl_cons, if_neg hc, if_pos hp, ih, List.filter_cons,
          hc, hp]
        simp [Prod.ext_iff]
        omega
      · simp only [List.foldl_cons, if_neg hc, if_neg hp, ih, List.filter_cons,
          hc, hp]
        simp [Prod.ext_iff, hc, hp]

/-- Two pointwise-incompatible filters select disjoint sublists, so their
lengths sum to at most the list length. -/
theorem filter_add_filter_le {α : Type} (p q : α → Bool) (l : List α)
    (h : ∀ x, ¬(p x = true ∧ q x = true)) :
    (l.filter p).length + (l.filter q).length ≤ l.length := by
  induction l with
  | nil => simp
  | cons a t ih =>
    simp only [List.filter_cons, List.length_cons]
    by_cases hp : p a
    · have hq : ¬ q a = true := fun hq => h a ⟨hp, hq⟩
      simp [hp, hq]
      omega
    · by_cases hq : q a = true
      · simp [hp, hq]
        omega
      · simp [hp, hq]
        omega

/-- Per required skill, exact and partial matching are mutually exclusive
and each required skill contributes to at most one counter, so the two
counts sum to at most the number of required skills. -/
theorem skillMatchCounts_sum_le (candL reqL : List String) :
    (skillMatchCounts candL reqL).1 + (skillMatchCounts candL reqL).2 ≤
      reqL.length := by
  rw [skillMatchCounts_spec]
  refine filter_add_filter_le _ _ reqL ?_
  intro x hx
  obtain ⟨h1, h2⟩ := hx
  simp only [Bool.and_eq_true, Bool.not_eq_true'] at h2
  rw [h1] at h2
  simp at h2

/-! ## Year-extraction bound -/

theorem tryYears_lt (r : Option ℕ) (next : ℕ) (h : next < 50) :
    tryYears r next < 50 := by
  cases r with
  | none => exact h
  | some n =>
    simp only [tryYears]
    split
    · rename_i hn
      exact hn.2
    · exact h

/-- The extractor only ever reports 0 or a value strictly inside (0, 50). -/
theorem extract_years_lt (t : String) : extract_years_from_text t < 50 := by
  unfold extract_years_from_text
  split
  · norm_num
  · exact tryYears_lt _ _ (tryYears_lt _ _ (tryYears_lt _ _ (tryYears_lt _ _
      (by norm_num))))

/-! ## Education-level characterization -/

theorem eduFold_le (t : String) :
    ∀ (l : List (String × ℕ)) (acc : ℕ),
      acc ≤ l.foldl (fun acc kv => if substrOf kv.1 t then max acc kv.2 else acc) acc := by
  intro l
  induction l with
  | nil => intro acc; simp
  | cons kv rest ih =>
    intro acc
    simp only [List.foldl_cons]
    refine le_trans ?_ (ih _)
    split
    · exact le_max_left _ _
    · exact le_refl _

theorem eduFold_ge (t : String) :
    ∀ (l : List (String × ℕ)) (acc : ℕ) (kv : String × ℕ),
      kv ∈ l → substrOf kv.1 t = true →
      kv.2 ≤ l.foldl (fun acc kv => if substrOf kv.1 t then max acc kv.2 else acc) acc := by
  intro l
  induction l with
  | nil =>
    intro acc kv h
    cases h
  | cons hd rest ih =>
    intro acc kv hmem hsub
    simp only [List.foldl_cons]
    rcases List.mem_cons.mp hmem with h | h
    · subst h
      rw [if_pos hsub]
      exact le_trans (le_max_right _ _) (eduFold_le t rest _)
    · exact ih _ kv h hsub

/-- Every keyword occurring in the text pushes the computed level at least
to its own level. -/
theorem eduLevel_ge (t : String) (kv : String × ℕ) (hmem : kv ∈ educationLevels)
    (hsub : substrOf kv.1 t = true) : kv.2 ≤ eduLevel t := by
  unfold eduLevel
  exact eduFold_ge t educationLevels 0 kv hmem hsub

/-- The computed level is 0 or the level of some keyword occurring in the
text. -/
theorem eduLevel_mem (t : String) :
    eduLevel t = 0 ∨
      ∃ kv ∈ educationLevels, substrOf kv.1 t = true ∧ eduLevel t = kv.2 := by
  unfold eduLevel
  suffices h : ∀ (l : List (String × ℕ)) (acc : ℕ),
      l.foldl (fun acc kv => if substrOf kv.1 t then max acc kv.2 else acc) acc = acc ∨
      ∃ kv ∈ l, substrOf kv.1 t = true ∧
        l.foldl (fun acc kv => if substrOf kv.1 t then max acc kv.2 else acc) acc = kv.2 by
    rcases h educationLevels 0 with h0 | ⟨kv, hmem, hsub, heq⟩
    · exact Or.inl h0
    · exact Or.inr ⟨kv, hmem, hsub, heq⟩
  intro l
  induction l with
  | nil => intro acc; exact Or.inl rfl
  | cons kv rest ih =>
    intro acc
    simp only [List.foldl_cons]
    by_cases hs : substrOf kv.1 t
    · rw [if_pos hs]
      rcases ih (max acc kv.2) with h0 | ⟨kv', hmem', hsub', heq'⟩
      · rcases max_choice acc kv.2 with hm | hm
        · exact Or.inl (h0.trans hm)
        · exact Or.inr ⟨kv, List.mem_cons_self _ _, hs, h0.trans hm⟩
      · exact Or.inr ⟨kv', List.mem_cons_of_mem _ hmem', hsub', heq'⟩
    · rw [if_neg hs]
      rcases ih acc with h0 | ⟨kv', hmem', hsub', heq'⟩
      · exact Or.inl h0
      · exact Or.inr ⟨kv', List.mem_cons_of_mem _ hmem', hsub', heq'⟩

/-! ## Sorting: order and stability -/

instance : IsTotal CandidateRecord byOverallDesc :=
  ⟨fun a b => le_total (overallOf b) (overallOf a)⟩

instance : IsTrans CandidateRecord byOverallDesc :=
  ⟨fun _ _ _ h1 h2 => le_trans h2 h1⟩

/-- Inserting an element and then keeping only the records of one overall
score gives the same list as prepending it: elements of equal key are never
jumped over. -/
theorem filter_orderedInsert_overall (v : ℚ) (a : CandidateRecord)
    (l : List CandidateRecord) :
    (l.orderedInsert byOverallDesc a).filter (fun x => decide (overallOf x = v)) =
      (a :: l).filter (fun x => decide (overallOf x = v)) := by
  induction l with
  | nil => rfl
  | cons b t ih =>
    simp only [List.orderedInsert]
    split
    · rfl
    · rename_i hr
      have hb : ¬(overallOf b ≤ overallOf a) := hr
      by_cases hpa : overallOf a = v <;> by_cases hpb : overallOf b = v
      · exact absurd (by rw [hpb, ← hpa]) hb
      · simp [List.filter_cons, hpa, hpb, ih]
      · simp [List.filter_cons, hpa, hpb, ih]
      · simp [List.filter_cons, hpa, hpb, ih]

/-- The stable sort leaves the relative order of equal-keyed records
untouched: filtering the sorted list by any overall score reproduces the
filter of the input. -/
theorem filter_insertionSort_overall (v : ℚ) (l : List CandidateRecord) :
    (List.insertionSort byOverallDesc l).filter
        (fun x => decide (overallOf x = v)) =
      l.filter (fun x => decide (overallOf x = v)) := by
  induction l with
  | nil => rfl
  | cons a t ih =>
    simp only [List.insertionSort]
    rw [filter_orderedInsert_overall, List.filter_cons, List.filter_cons, ih]

/-! ## Bounds on the assembled scores -/

theorem rawOverall_nonneg (c : CandidateRecord) (jd : String) (ja : JobAnalysis) :
    0 ≤ rawOverall defaultWeights c jd ja := by
  have h1 := score_skills_match_nonneg (c.skills?.getD []) ja.required_skills
  have h2 := score_experience_match_nonneg (c.experience_years?.getD "0")
    ja.experience_requirements
  have h3 := score_education_match_nonneg (c.education?.getD "")
    ja.education_requirements
  have h4 := score_keyword_relevance_nonneg (c.raw_text?.getD "")
    ja.important_keywords
  have h5 := score_text_similarity_nonneg (c.raw_text?.getD "") jd
  simp only [rawOverall, rawSkills, rawExperience, rawEducation, rawKeyword,
    rawSimilarity, defaultWeights]
  linarith

theorem rawOverall_le_hundred (c : CandidateRecord) (jd : String)
    (ja : JobAnalysis) : rawOverall defaultWeights c jd ja ≤ 100 := by
  have h1 := score_skills_match_le_hundred (c.skills?.getD []) ja.required_skills
  have h2 := score_experience_match_le_hundred (c.experience_years?.getD "0")
    ja.experience_requirements
  have h3 := score_education_match_le_hundred (c.education?.getD "")
    ja.education_requirements
  have h4 := score_keyword_relevance_le_hundred (c.raw_text?.getD "")
    ja.important_keywords
  have h5 := score_text_similarity_le_hundred (c.raw_text?.getD "") jd
  simp only [rawOverall, rawSkills, rawExperience, rawEducation, rawKeyword,
    rawSimilarity, defaultWeights]
  linarith

/-- All six rounded scores of one candidate lie in `[0, 100]` under the
constructor weights. -/
theorem score_single_in_range (c : CandidateRecord) (jd : String)
    (ja : JobAnalysis) :
    (0 ≤ (score_single_candidate defaultWeights c jd ja).skills_score ∧
      (score_single_candidate defaultWeights c jd ja).skills_score ≤ 100) ∧
    (0 ≤ (score_single_candidate defaultWeights c jd ja).experience_score ∧
      (score_single_candidate defaultWeights c jd ja).experience_score ≤ 100) ∧
    (0 ≤ (score_single_candidate defaultWeights c jd ja).education_score ∧
      (score_single_candidate defaultWeights c jd ja).education_score ≤ 100) ∧
    (0 ≤ (score_single_candidate defaultWeights c jd ja).keyword_score ∧
      (score_single_candidate defaultWeights c jd ja).keyword_score ≤ 100) ∧
    (0 ≤ (score_single_candidate defaultWeights c jd ja).similarity_score ∧
      (score_single_candidate defaultWeights c jd ja).similarity_score ≤ 100) ∧
    (0 ≤ (score_single_candidate defaultWeights c jd ja).overall_score ∧
      (score_single_candidate defaultWeights c jd ja).overall_score ≤ 100) := by
  simp only [score_single_candidate]
  have hsim0 := score_text_similarity_nonneg (c.raw_text?.getD "") jd
  have hsim1 := score_text_similarity_le_hundred (c.raw_text?.getD "") jd
  refine ⟨⟨round1_nonneg _ ?_, round1_le_hundred _ ?_⟩,
    ⟨round1_nonneg _ ?_, round1_le_hundred _ ?_⟩,
    ⟨round1_nonneg _ ?_, round1_le_hundred _ ?_⟩,
    ⟨round1_nonneg _ ?_, round1_le_hundred _ ?_⟩,
    ⟨round1_nonneg _ ?_, round1_le_hundred _ ?_⟩,
    ⟨round1_nonneg _ ?_, round1_le_hundred _ ?_⟩⟩
  · exact score_skills_match_nonneg _ _
  · exact score_skills_match_le_hundred _ _
  · exact score_experience_match_nonneg _ _
  · exact score_experience_match_le_hundred _ _
  · exact score_education_match_nonneg _ _
  · exact score_education_match_le_hundred _ _
  · exact score_keyword_relevance_nonneg _ _
  · exact score_keyword_relevance_le_hundred _ _
  · exact hsim0
  · exact hsim1
  · exact rawOverall_nonneg c jd ja
  · exact rawOverall_le_hundred c jd ja

/-! ## The exception-aware scorers never fail and agree with the total
embedding -/

theorem score_skills_matchE_eq (cs rs : List String) :
    score_skills_matchE cs rs = some (score_skills_match cs rs) := by
  simp only [score_skills_matchE, score_skills_match]
  split
  · rfl
  · rename_i h
    have hrs : rs ≠ [] := fun he => h (Or.inl he)
    have hlen : ((rs.map pyLower).length : ℚ) ≠ 0 := by
      simp only [List.length_map, ne_eq, Nat.cast_eq_zero]
      exact fun hl => hrs (List.eq_nil_of_length_eq_zero hl)
    simp only [divq, if_neg hlen, Option.map_some']

theorem score_experience_matchE_eq (a b : String) :
    score_experience_matchE a b = some (score_experience_match a b) := by
  simp only [score_experience_matchE, score_experience_match]
  split
  · rfl
  · rename_i hr
    have hrq : ((extract_years_from_text b : ℚ)) ≠ 0 := by
      simp only [ne_eq, Nat.cast_eq_zero]
      exact hr
    split
    · rfl
    · split <;> simp [divq, hrq]

theorem score_keyword_relevanceE_eq (t : String) (kws : List String) :
    score_keyword_relevanceE t kws = some (score_keyword_relevance t kws) := by
  simp only [score_keyword_relevanceE, score_keyword_relevance]
  split
  · rfl
  · split
    · rfl
    · rename_i hne hlen
      have h : ((kws.length : ℚ)) ≠ 0 := by
        simp only [ne_eq, Nat.cast_eq_zero]
        exact hlen
      simp [divq, h]

theorem token_similarityE_eq (t1 t2 : Finset String) :
    token_similarityE t1 t2 = some (token_similarity t1 t2) := by
  simp only [token_similarityE, token_similarity]
  split
  · rfl
  · split
    · rename_i hne hcard
      have h : (((t1 ∪ t2).card : ℚ)) ≠ 0 := by
        simp only [ne_eq, Nat.cast_eq_zero]
        omega
      simp [divq, h]
    · rfl

theorem calculate_text_similarityE_eq (a b : String) :
    calculate_text_similarityE a b = calculate_text_similarity a b := by
  simp only [calculate_text_similarityE, calculate_text_similarity,
    token_similarityE_eq, Option.getD_some]

theorem score_text_similarityE_eq (a b : String) :
    score_text_similarityE a b = score_text_similarity a b := by
  simp only [score_text_similarityE, score_text_similarity,
    calculate_text_similarityE_eq]

theorem score_single_candidateE_eq (w : Weights) (c : CandidateRecord)
    (jd : String) (ja : JobAnalysis) :
    score_single_candidateE w c jd ja =
      some (score_single_candidate w c jd ja) := by
  simp only [score_single_candidateE, score_skills_matchE_eq,
    score_experience_matchE_eq, score_education_matchE,
    score_keyword_relevanceE_eq, score_text_similarityE_eq,
    Option.bind_eq_bind, Option.some_bind]
  rfl

theorem mapM_eq_some {α β : Type} (f : α → Option β) (g : α → β)
    (h : ∀ a, f a = some (g a)) :
    ∀ l : List α, l.mapM f = some (l.map g) := by
  intro l
  induction l with
  | nil => rfl
  | cons a t ih =>
    rw [List.mapM_cons, h, ih]
    rfl

theorem score_candidatesE_eq (w : Weights) (analyze : String → JobAnalysis)
    (cs : List CandidateRecord) (jd : String) :
    score_candidatesE w analyze cs jd =
      some (score_candidates w analyze cs jd) := by
  simp only [score_candidatesE, score_candidates]
  rw [mapM_eq_some _
    (fun c => updateScores c (score_single_candidate w c jd (analyze jd)))
    (fun c => by rw [score_single_candidateE_eq]; rfl)]
  rfl

/-! ## Auxiliary identities -/

theorem minQ_eq_min (a b : ℚ) : minQ a b = min a b := by
  rw [minQ, min_def]

theorem maxQ_eq_max (a b : ℚ) : maxQ a b = max a b := by
  rw [maxQ, max_def]
  split_ifs <;> linarith

/-- The uncapped skills score never exceeds 100: each required skill feeds
at most one of the two counters. -/
theorem score_skills_match_uncapped_le (cand req : List String) :
    score_skills_match_uncapped cand req ≤ 100 := by
  simp only [score_skills_match_uncapped]
  split
  · norm_num
  · rename_i h
    have hreq : req ≠ [] := fun he => h (Or.inl he)
    have hlen : 0 < req.length := List.length_pos.mpr hreq
    have hsum := skillMatchCounts_sum_le (cand.map pyLower) (req.map pyLower)
    rw [List.length_map] at hsum
    set e := (skillMatchCounts (cand.map pyLower) (req.map pyLower)).1 with he
    set p := (skillMatchCounts (cand.map pyLower) (req.map pyLower)).2 with hp
    have hq : (e : ℚ) * 1 + (p : ℚ) * (7/10) ≤ (req.length : ℚ) := by
      have : (e : ℚ) + (p : ℚ) ≤ (req.length : ℚ) := by exact_mod_cast hsum
      have hp0 : (0 : ℚ) ≤ (p : ℚ) := by positivity
      linarith
    have hlq : (0 : ℚ) < (req.length : ℚ) := by exact_mod_cast hlen
    rw [List.length_map]
    have hdiv : ((e : ℚ) * 1 + (p : ℚ) * (7/10)) / (req.length : ℚ) ≤ 1 := by
      rw [div_le_one hlq]
      linarith
    calc ((e : ℚ) * 1 + (p : ℚ) * (7/10)) / (req.length : ℚ) * 100
        ≤ 1 * 100 := by
          apply mul_le_mul_of_nonneg_right hdiv
          norm_num
      _ = 100 := by norm_num

/-- With the cap slack, the capping `min` is the identity. -/
theorem score_skills_match_eq_uncapped (cand req : List String) :
    score_skills_match cand req = score_skills_match_uncapped cand req := by
  have h := score_skills_match_uncapped_le cand req
  simp only [score_skills_match, score_skills_match_uncapped] at h ⊢
  split
  · rfl
  · rename_i hne
    rw [minQ_eq_min]
    rw [if_neg hne] at h
    exact min_eq_left h

/-- Rounding each component and the overall sum separately keeps the
reported overall within one tenth of the weighted sum of the reported
components, for the constructor weights (which sum to 1). -/
theorem overall_close_default (c : CandidateRecord) (jd : String)
    (ja : JobAnalysis) :
    |round1 (rawOverall defaultWeights c jd ja) -
      (round1 (rawSkills c ja) * (4/10) + round1 (rawExperience c ja) * (25/100) +
       round1 (rawEducation c ja) * (15/100) + round1 (rawKeyword c ja) * (15/100) +
       round1 (rawSimilarity c jd) * (5/100))| ≤ 1/10 := by
  have h0 := abs_le.mp (abs_round1_sub (rawOverall defaultWeights c jd ja))
  have h1 := abs_le.mp (abs_round1_sub (rawSkills c ja))
  have h2 := abs_le.mp (abs_round1_sub (rawExperience c ja))
  have h3 := abs_le.mp (abs_round1_sub (rawEducation c ja))
  have h4 := abs_le.mp (abs_round1_sub (rawKeyword c ja))
  have h5 := abs_le.mp (abs_round1_sub (rawSimilarity c jd))
  have hsum : rawOverall defaultWeights c jd ja =
      rawSkills c ja * (4/10) + rawExperience c ja * (25/100) +
      rawEducation c ja * (15/100) + rawKeyword c ja * (15/100) +
      rawSimilarity c jd * (5/100) := by
    simp only [rawOverall, defaultWeights]
  rw [abs_le]
  constructor <;> [linarith; linarith]

theorem min_mul_hundred (x : ℚ) : min (x * 100) 100 = 100 * min 1 x := by
  rcases le_total x 1 with h | h
  · rw [min_eq_left (by linarith), min_eq_right h]
    ring
  · rw [min_eq_right (by linarith), min_eq_left h]
    ring

/-! ## Claim theorems -/

/-- C1: For every list of candidate records and every job description (and
any analysis of it), each of the five component scores produced by
`score_candidates` lies in [0, 100]; and with the weight configuration set
by the `ScoringEngine` constructor (weights summing to 1), `overall_score`
also lies in [0, 100]. -/
theorem C1_scores_in_range (analyze : String → JobAnalysis)
    (cs : List CandidateRecord) (jd : String) (r : CandidateRecord)
    (hr : r ∈ score_candidates defaultWeights analyze cs jd) :
    ∃ s : ScoreRecord, r.scores? = some s ∧
      (0 ≤ s.skills_score ∧ s.skills_score ≤ 100) ∧
      (0 ≤ s.experience_score ∧ s.experience_score ≤ 100) ∧
      (0 ≤ s.education_score ∧ s.education_score ≤ 100) ∧
      (0 ≤ s.keyword_score ∧ s.keyword_score ≤ 100) ∧
      (0 ≤ s.similarity_score ∧ s.similarity_score ≤ 100) ∧
      (0 ≤ s.overall_score ∧ s.overall_score ≤ 100) := by
  simp only [score_candidates] at hr
  rw [List.mem_insertionSort] at hr
  obtain ⟨c, hc, rfl⟩ := List.mem_map.mp hr
  exact ⟨score_single_candidate defaultWeights c jd (analyze jd), rfl,
    score_single_in_range c jd (analyze jd)⟩

/-- Witness for C1 at a concrete candidate, job description, and analysis. -/
theorem C1_scores_in_range_witness :
    ∃ s : ScoreRecord,
      (updateScores cand0
        (score_single_candidate defaultWeights cand0 "python"
          (analyze0 "python"))).scores? = some s ∧
      (0 ≤ s.skills_score ∧ s.skills_score ≤ 100) ∧
      (0 ≤ s.experience_score ∧ s.experience_score ≤ 100) ∧
      (0 ≤ s.education_score ∧ s.education_score ≤ 100) ∧
      (0 ≤ s.keyword_score ∧ s.keyword_score ≤ 100) ∧
      (0 ≤ s.similarity_score ∧ s.similarity_score ≤ 100) ∧
      (0 ≤ s.overall_score ∧ s.overall_score ≤ 100) :=
  C1_scores_in_range analyze0 [cand0] "python" _ (List.mem_singleton_self _)

/-- C3: the returned list is sorted non-increasingly by `overall_score`,
and filtering by any fixed overall score reproduces the decorated input
order — equal-scoring candidates retain their relative input order, with
no secondary tie-break key. -/
theorem C3_sorted_descending_stable (w : Weights)
    (analyze : String → JobAnalysis) (cs : List CandidateRecord)
    (jd : String) :
    List.Sorted (fun a b => overallOf b ≤ overallOf a)
      (score_candidates w analyze cs jd) ∧
    ∀ v : ℚ,
      (score_candidates w analyze cs jd).filter
          (fun x => decide (overallOf x = v)) =
        (cs.map fun c =>
          updateScores c (score_single_candidate w c jd (analyze jd))).filter
          (fun x => decide (overallOf x = v)) := by
  constructor
  · exact List.sorted_insertionSort byOverallDesc _
  · intro v
    exact filter_insertionSort_overall v _

/-- C8: for every well-typed input, the scoring pipeline with all fallible
operations made explicit succeeds and agrees with the total embedding —
no exception can originate inside the scoring path, and any similarity
failure is mapped to 0 rather than propagated. -/
theorem C8_never_raises (w : Weights) (analyze : String → JobAnalysis)
    (cs : List CandidateRecord) (jd : String) :
    score_candidatesE w analyze cs jd =
      some (score_candidates w analyze cs jd) ∧
    (∀ (c : CandidateRecord) (ja : JobAnalysis),
      score_single_candidateE w c jd ja =
        some (score_single_candidate w c jd ja)) ∧
    (∀ a b : String,
      calculate_text_similarityE a b = calculate_text_similarity a b) :=
  ⟨score_candidatesE_eq w analyze cs jd,
   fun c ja => score_single_candidateE_eq w c jd ja,
   fun a b => calculate_text_similarityE_eq a b⟩

/-- C9: `score_candidates` returns a permutation of the input records each
decorated with freshly computed scores; decoration writes exactly the score
block and leaves every other field of the record equal to the input's, a
second decoration fully replaces the first, and prior scores never
influence re-scoring. -/
theorem C9_no_input_mutation (w : Weights) (analyze : String → JobAnalysis)
    (cs : List CandidateRecord) (jd : String) :
    (score_candidates w analyze cs jd).Perm
      (cs.map fun c =>
        updateScores c (score_single_candidate w c jd (analyze jd))) ∧
    (∀ (c : CandidateRecord) (s : ScoreRecord),
      (updateScores c s).skills? = c.skills? ∧
      (updateScores c s).experience_years? = c.experience_years? ∧
      (updateScores c s).education? = c.education? ∧
      (updateScores c s).raw_text? = c.raw_text? ∧
      (updateScores c s).extra = c.extra ∧
      (updateScores c s).scores? = some s) ∧
    (∀ (c : CandidateRecord) (s1 s2 : ScoreRecord),
      updateScores (updateScores c s1) s2 = updateScores c s2) ∧
    (∀ (c : CandidateRecord) (s : ScoreRecord) (jd2 : String)
      (ja2 : JobAnalysis),
      score_single_candidate w (updateScores c s) jd2 ja2 =
        score_single_candidate w c jd2 ja2) :=
  ⟨List.perm_insertionSort byOverallDesc _,
   fun _ _ => ⟨rfl, rfl, rfl, rfl, rfl, rfl⟩,
   fun _ _ _ => rfl,
   fun _ _ _ _ => rfl⟩

/-- C10: the `min(·, 100)` cap of `_score_skills_match` never binds: each
required skill contributes to at most one of the two counters, so the
uncapped score is already at most 100 and capping is the identity. -/
theorem C10_cap_never_binds (cand req : List String) :
    (skillMatchCounts (cand.map pyLower) (req.map pyLower)).1 +
      (skillMatchCounts (cand.map pyLower) (req.map pyLower)).2 ≤ req.length ∧
    score_skills_match_uncapped cand req ≤ 100 ∧
    score_skills_match cand req = score_skills_match_uncapped cand req := by
  refine ⟨?_, score_skills_match_uncapped_le cand req,
    score_skills_match_eq_uncapped cand req⟩
  have h := skillMatchCounts_sum_le (cand.map pyLower) (req.map pyLower)
  rwa [List.length_map] at h

/-- C2: every reported score record consists of the five components
rounded to one decimal place and an overall score equal to the rounded
weighted sum of the unrounded components under the weights active at call
time; with the constructor weights the reported overall is within one
tenth of the weighted sum of the reported components. -/
theorem C2_overall_weighted_sum (w : Weights) (analyze : String → JobAnalysis)
    (cs : List CandidateRecord) (jd : String) (r : CandidateRecord)
    (hr : r ∈ score_candidates w analyze cs jd) :
    ∃ s : ScoreRecord, r.scores? = some s ∧
      ∃ rawS rawE rawD rawK rawM : ℚ,
        s.skills_score = round1 rawS ∧
        s.experience_score = round1 rawE ∧
        s.education_score = round1 rawD ∧
        s.keyword_score = round1 rawK ∧
        s.similarity_score = round1 rawM ∧
        s.overall_score = round1 (rawS * w.skills_match +
          rawE * w.experience_match + rawD * w.education_match +
          rawK * w.keyword_relevance + rawM * w.text_similarity) ∧
        (w = defaultWeights →
          |s.overall_score - (s.skills_score * w.skills_match +
            s.experience_score * w.experience_match +
            s.education_score * w.education_match +
            s.keyword_score * w.keyword_relevance +
            s.similarity_score * w.text_similarity)| ≤ 1/10) := by
  simp only [score_candidates] at hr
  rw [List.mem_insertionSort] at hr
  obtain ⟨c, hc, rfl⟩ := List.mem_map.mp hr
  refine ⟨score_single_candidate w c jd (analyze jd), rfl,
    rawSkills c (analyze jd), rawExperience c (analyze jd),
    rawEducation c (analyze jd), rawKeyword c (analyze jd),
    rawSimilarity c jd, rfl, rfl, rfl, rfl, rfl, rfl, ?_⟩
  rintro rfl
  have h := overall_close_default c jd (analyze jd)
  simpa only [score_single_candidate, defaultWeights] using h

/-- Witness for C2 at a concrete input. -/
theorem C2_overall_weighted_sum_witness :
    ∃ s : ScoreRecord,
      (updateScores cand0
        (score_single_candidate defaultWeights cand0 "python"
          (analyze0 "python"))).scores? = some s ∧
      ∃ rawS rawE rawD rawK rawM : ℚ,
        s.skills_score = round1 rawS ∧
        s.experience_score = round1 rawE ∧
        s.education_score = round1 rawD ∧
        s.keyword_score = round1 rawK ∧
        s.similarity_score = round1 rawM ∧
        s.overall_score = round1 (rawS * defaultWeights.skills_match +
          rawE * defaultWeights.experience_match +
          rawD * defaultWeights.education_match +
          rawK * defaultWeights.keyword_relevance +
          rawM * defaultWeights.text_similarity) ∧
        (defaultWeights = defaultWeights →
          |s.overall_score - (s.skills_score * defaultWeights.skills_match +
            s.experience_score * defaultWeights.experience_match +
            s.education_score * defaultWeights.education_match +
            s.keyword_score * defaultWeights.keyword_relevance +
            s.similarity_score * defaultWeights.text_similarity)| ≤ 1/10) :=
  C2_overall_weighted_sum defaultWeights analyze0 [cand0] "python" _
    (List.mem_singleton_self _)

/-- C4: the skills scorer returns 0 when either list is empty; otherwise it
is `100 × min(1, (exact·1.0 + partial·0.7) / |required|)` where `exact`
counts required skills present verbatim case-insensitively and `partial`
counts required skills with at most one substring-or-variant match; the
spec's example evaluates to 50. -/
theorem C4_skills_match (cand req : List String) :
    (req = [] ∨ cand = [] → score_skills_match cand req = 0) ∧
    (¬(req = [] ∨ cand = []) →
      score_skills_match cand req =
        100 * min 1
          (((((req.map pyLower).filter fun r =>
                (cand.map pyLower).contains r).length : ℚ) * 1 +
            (((req.map pyLower).filter fun r =>
                !(cand.map pyLower).contains r &&
                  (cand.map pyLower).any fun c => partialMatch r c).length : ℚ) *
              (7/10)) / (req.length : ℚ))) ∧
    score_skills_match ["python", "Docker"] ["Python", "AWS"] = 50 := by
  refine ⟨?_, ?_, ?_⟩
  · intro h
    simp only [score_skills_match, if_pos h]
  · intro h
    simp only [score_skills_match, if_neg h, skillMatchCounts_spec]
    rw [minQ_eq_min, List.length_map, min_mul_hundred]
  · have h : skillMatchCounts (["python", "Docker"].map pyLower)
        (["Python", "AWS"].map pyLower) = (1, 0) := by decide
    simp only [score_skills_match, h]
    norm_num [minQ]
    decide

/-- Witness for C4 at concrete inputs, discharging both emptiness
hypotheses. -/
theorem C4_skills_match_witness :
    score_skills_match ["js"] [] = 0 ∧
    score_skills_match ["js"] ["JavaScript"] =
      100 * min 1
        (((((["JavaScript"].map pyLower).filter fun r =>
              (["js"].map pyLower).contains r).length : ℚ) * 1 +
          (((["JavaScript"].map pyLower).filter fun r =>
              !(["js"].map pyLower).contains r &&
                (["js"].map pyLower).any fun c => partialMatch r c).length : ℚ) *
            (7/10)) / ((["JavaScript"] : List String).length : ℚ)) :=
  ⟨(C4_skills_match ["js"] []).1 (Or.inl rfl),
   (C4_skills_match ["js"] ["JavaScript"]).2.1 (by decide)⟩

/-- C5: the experience scorer parses both year counts with the
pattern-based extractor (values constrained below 50), returns 75 when the
requirement parses to 0, 30 when only the candidate parses to 0, 100 for a
ratio up to 1.5, `max 85 (100 − (ratio − 1.5)·10)` beyond, and `ratio·80`
for an under-qualified candidate; the spec's examples evaluate as stated. -/
theorem C5_experience_match (ce re : String) :
    (extract_years_from_text ce < 50 ∧ extract_years_from_text re < 50) ∧
    (extract_years_from_text re = 0 → score_experience_match ce re = 75) ∧
    (extract_years_from_text re ≠ 0 → extract_years_from_text ce = 0 →
      score_experience_match ce re = 30) ∧
    (extract_years_from_text re ≠ 0 → extract_years_from_text ce ≠ 0 →
      extract_years_from_text re ≤ extract_years_from_text ce →
      ((extract_years_from_text ce : ℚ) / (extract_years_from_text re : ℚ) ≤
          3/2 → score_experience_match ce re = 100) ∧
      (3/2 < (extract_years_from_text ce : ℚ) /
          (extract_years_from_text re : ℚ) →
        score_experience_match ce re =
          max 85 (100 - ((extract_years_from_text ce : ℚ) /
            (extract_years_from_text re : ℚ) - 3/2) * 10))) ∧
    (extract_years_from_text re ≠ 0 → extract_years_from_text ce ≠ 0 →
      extract_years_from_text ce < extract_years_from_text re →
      score_experience_match ce re =
        (extract_years_from_text ce : ℚ) /
          (extract_years_from_text re : ℚ) * 80) ∧
    extract_years_from_text "5 years" = 5 ∧
    extract_years_from_text "10+ yrs" = 10 ∧
    extract_years_from_text "2" = 2 ∧
    extract_years_from_text "~3" = 3 ∧
    extract_years_from_text "Not specified" = 0 ∧
    score_experience_match "2" "5 years" = 32 ∧
    ∀ c : String, score_experience_match c "Not specified" = 75 := by
  refine ⟨⟨extract_years_lt ce, extract_years_lt re⟩, ?_, ?_, ?_, ?_, by decide,
    by decide, by decide, by decide, by decide, ?_, ?_⟩
  · intro h
    simp only [score_experience_match]
    rw [if_pos h]
  · intro h1 h2
    simp only [score_experience_match]
    rw [if_neg h1, if_pos h2]
  · intro h1 h2 h3
    constructor
    · intro h4
      simp only [score_experience_match]
      rw [if_neg h1, if_neg h2, if_pos h3, if_pos h4]
    · intro h4
      simp only [score_experience_match]
      rw [if_neg h1, if_neg h2, if_pos h3, if_neg (not_le.mpr h4), maxQ_eq_max]
  · intro h1 h2 h3
    simp only [score_experience_match]
    rw [if_neg h1, if_neg h2, if_neg (not_le.mpr h3)]
  · have h1 : extract_years_from_text "2" = 2 := by decide
    have h2 : extract_years_from_text "5 years" = 5 := by decide
    simp only [score_experience_match, h1, h2]
    norm_num
  · intro c
    have h : extract_years_from_text "Not specified" = 0 := by decide
    simp only [score_experience_match, h]
    norm_num

/-- Witness for C5 at concrete inputs, discharging the branch
hypotheses. -/
theorem C5_experience_match_witness :
    score_experience_match "2" "5 years" =
      (extract_years_from_text "2" : ℚ) /
        (extract_years_from_text "5 years" : ℚ) * 80 ∧
    score_experience_match "7" "5 yrs" = 100 :=
  ⟨(C5_experience_match "2" "5 years").2.2.2.2.1 (by decide) (by decide)
      (by decide),
   ((C5_experience_match "7" "5 yrs").2.2.2.1 (by decide) (by decide)
      (by decide)).1 (by
        have h1 : extract_years_from_text "7" = 7 := by decide
        have h2 : extract_years_from_text "5 yrs" = 5 := by decide
        rw [h1, h2]
        norm_num)⟩

/-- C6 counterexample: the claim's example "Diploma" vs "Master" does not
yield 25.0 — the keyword "ma" occurs inside "diploma", so the candidate
maps to level 5 and the scorer returns 100.0. -/
theorem C6_education_counterexample :
    score_education_match "Diploma" "Master" = 100 ∧
    score_education_match "Diploma" "Master" ≠ 25 := by
  constructor
  · decide
  · decide

/-- C6 (amended): each text maps to the highest level whose keyword occurs
as a case-insensitive substring; when both texts are non-empty
non-sentinels and both map to a positive level, the score is 100 when the
candidate level reaches the required level, 75 one level below, 50 two
below, 25 further below.  Candidate "Not Specified" vs "Bachelor in CS"
yields 40.0, "PhD in Physics" vs "Bachelor" yields 100.0, and "Diploma" vs
"Master" yields 100.0 (the keyword "ma" occurs in "diploma", level 5). -/
theorem C6_education_amended (ce re : String) :
    (∀ t : String,
      (∀ kv ∈ educationLevels, substrOf kv.1 t = true → kv.2 ≤ eduLevel t) ∧
      (eduLevel t = 0 ∨
        ∃ kv ∈ educationLevels, substrOf kv.1 t = true ∧ eduLevel t = kv.2)) ∧
    (re ≠ "" → re ≠ "Not specified" → ce ≠ "" → ce ≠ "Not Specified" →
      1 ≤ eduLevel (pyLower ce) → 1 ≤ eduLevel (pyLower re) →
      score_education_match ce re =
        if eduLevel (pyLower re) ≤ eduLevel (pyLower ce) then 100
        else if eduLevel (pyLower ce) = eduLevel (pyLower re) - 1 then 75
        else if eduLevel (pyLower ce) = eduLevel (pyLower re) - 2 then 50
        else 25) ∧
    score_education_match "Not Specified" "Bachelor in CS" = 40 ∧
    score_education_match "PhD in Physics" "Bachelor" = 100 ∧
    score_education_match "Diploma" "Master" = 100 := by
  refine ⟨fun t => ⟨fun kv hm hs => eduLevel_ge t kv hm hs, eduLevel_mem t⟩,
    ?_, by decide, by decide, by decide⟩
  intro h1 h2 h3 h4 h5 h6
  simp only [score_education_match]
  rw [if_neg (by rintro (h | h) <;> [exact h1 h; exact h2 h]),
    if_neg (by rintro (h | h) <;> [exact h3 h; exact h4 h]),
    if_neg (by omega), if_neg (by omega)]

/-- Witness for C6 at a concrete input, discharging the sentinel and
positive-level hypotheses. -/
theorem C6_education_amended_witness :
    score_education_match "PhD in Physics" "Bachelor" =
      if eduLevel (pyLower "Bachelor") ≤ eduLevel (pyLower "PhD in Physics")
      then (100 : ℚ)
      else if eduLevel (pyLower "PhD in Physics") =
          eduLevel (pyLower "Bachelor") - 1 then 75
      else if eduLevel (pyLower "PhD in Physics") =
          eduLevel (pyLower "Bachelor") - 2 then 50
      else 25 :=
  (C6_education_amended "PhD in Physics" "Bachelor").2.1 (by decide)
    (by decide) (by decide) (by decide) (by decide) (by decide)

/-- C7 counterexample: the claim's "for any pair of identical texts the
fallback result is 1.0" fails on texts whose token set is empty — two
empty texts are identical yet score 0.0. -/
theorem C7_similarity_counterexample :
    calculate_text_similarity "" "" = 0 ∧
    calculate_text_similarity "" "" ≠ 1 := by
  constructor
  · decide
  · decide

/-- C7 (amended): on the fallback (token-overlap) path the result is the
Jaccard similarity of the two token sets, 0.0 when either set is empty;
identical texts whose token set is nonempty score 1.0. -/
theorem C7_similarity_amended (t1 t2 : Finset String) (a : String) :
    (t1 = ∅ ∨ t2 = ∅ → token_similarity t1 t2 = 0) ∧
    (t1 ≠ ∅ → t2 ≠ ∅ →
      token_similarity t1 t2 =
        ((t1 ∩ t2).card : ℚ) / ((t1 ∪ t2).card : ℚ)) ∧
    (∀ b c : String, calculate_text_similarity b c =
      token_similarity (tokenize (pyLower b)) (tokenize (pyLower c))) ∧
    (tokenize (pyLower a) ≠ ∅ → calculate_text_similarity a a = 1) := by
  refine ⟨?_, ?_, fun b c => rfl, ?_⟩
  · intro h
    simp only [token_similarity, if_pos h]
  · intro h1 h2
    have hpos : 0 < (t1 ∪ t2).card := by
      refine Finset.card_pos.mpr ?_
      exact Finset.Nonempty.inl (Finset.nonempty_iff_ne_empty.mpr h1)
    simp only [token_similarity]
    rw [if_neg (by rintro (h | h) <;> [exact h1 h; exact h2 h]), if_pos hpos]
  · intro h
    have hpos : 0 < (tokenize (pyLower a) ∪ tokenize (pyLower a)).card := by
      rw [Finset.union_self]
      exact Finset.card_pos.mpr (Finset.nonempty_iff_ne_empty.mpr h)
    simp only [calculate_text_similarity, token_similarity]
    rw [if_neg (by rintro (hh | hh) <;> exact h hh), if_pos hpos,
      Finset.inter_self, Finset.union_self]
    rw [div_self]
    rw [Finset.union_self] at hpos
    exact Nat.cast_ne_zero.mpr (Nat.pos_iff_ne_zero.mp hpos)

/-- Witness for C7 at concrete token sets and a concrete text. -/
theorem C7_similarity_amended_witness :
    token_similarity ({"python"} : Finset String) ({"aws"} : Finset String) =
      ((({"python"} : Finset String) ∩ {"aws"}).card : ℚ) /
        ((({"python"} : Finset String) ∪ {"aws"}).card : ℚ) ∧
    calculate_text_similarity "python developer" "python developer" = 1 :=
  ⟨(C7_similarity_amended {"python"} {"aws"} "python developer").2.1
      (by decide) (by decide),
   (C7_similarity_amended {"python"} {"aws"} "python developer").2.2.2
      (by decide)⟩

end ResumeScreen
